import Mathlib

/-!
Shallow embedding of the Kortex agent orchestration core
(`src/kortex/core/tools/` and `src/kortex/core/agent/`): the permission
model, tool catalog, registry dispatch, the agent execute/continue loop,
the router decision, and the required-model check; together with theorems
settling the specification claims about them.

Effectful operations (filesystem reads/writes, process execution, the
inference backend) are modelled by an explicit environment (`World`,
`RouterResponse`) supplying the outcome of each external call; the Lean
functions mirror the Python control flow over those outcomes.
-/

set_option linter.unusedVariables false

namespace Kortex

/-- Permission tags for tools (`tools/base.py`, `class Permission`). -/
inductive Permission where
  | fs_read
  | fs_write
  | internet
  | run_command
deriving DecidableEq, Repr

/-- `Permission.requires_explicit_permission` (`tools/base.py` lines 20-27):
true exactly for FS_WRITE, INTERNET and RUN_CMD. -/
def Permission.requires_explicit_permission : Permission → Bool
  | .fs_write => true
  | .internet => true
  | .run_command => true
  | .fs_read => false

/-- `ToolResult` (`tools/base.py`): success flag, output text, optional error. -/
structure ToolResult where
  success : Bool
  output : String
  error : Option String := Option.none
deriving DecidableEq, Repr

/-- A Python value as it appears in a tool-argument mapping. -/
inductive PyValue where
  | str (s : String)
  | int (n : Int)
  | bool (b : Bool)
  | pynone
deriving DecidableEq, Repr

/-- Python truthiness of a value (used by `if working_dir:`, `if append:`, ...). -/
def PyValue.truthy : PyValue → Bool
  | .str s => s ≠ ""
  | .int n => n ≠ 0
  | .bool b => b
  | .pynone => false

/-- An argument mapping (Python keyword-argument dict), first binding wins. -/
abbrev Args := List (String × PyValue)

/-- Dict lookup on an argument mapping. -/
def lookupArg (args : Args) (k : String) : Option PyValue :=
  match args with
  | [] => Option.none
  | (k2, v) :: rest => if k2 = k then some v else lookupArg rest k

/-- `ToolCall` (`tools/base.py`): a pending tool call that may need permission. -/
structure ToolCall where
  tool_name : String
  tool_description : String
  arguments : Args
  permissions : List Permission
  requires_permission : Bool
  call_id : String := ""
deriving DecidableEq, Repr

/-- Outcome the environment assigns to reading an existing regular file:
its decoded lines (as the Python line iterator yields them, trailing
newline included), a UnicodeDecodeError, a PermissionError, or some
other OSError with message. -/
inductive ReadOutcome where
  | text (fileLines : List String)
  | binary
  | permissionDenied
  | ioError (msg : String)
deriving DecidableEq, Repr

/-- State of a path in the environment: missing, existing but not a
regular file (directory), or a regular file with a byte size and a read
outcome. -/
inductive FileState where
  | missing
  | directory
  | file (size : Nat) (read : ReadOutcome)
deriving DecidableEq, Repr

/-- Outcome the environment assigns to a `subprocess.run` call:
completion with exit code and captured stdout/stderr, a TimeoutExpired,
or some other exception with message. -/
inductive CmdOutcome where
  | completed (returncode : Int) (stdout stderr : String)
  | timedOut
  | raised (msg : String)
deriving DecidableEq, Repr

/-- Outcome the environment assigns to a file write. -/
inductive WriteOutcome where
  | written
  | permissionDenied
  | raised (msg : String)
deriving DecidableEq, Repr

/-- One entry of a directory listing: name, whether it is a directory,
and its byte size (meaningful for regular files). -/
structure DirEntry where
  name : String
  isDir : Bool
  size : Nat
deriving DecidableEq, Repr

/-- Outcome the environment assigns to iterating a directory; `entries`
carries the entries in the sorted order `sorted(target_path.iterdir())`
produces. -/
inductive DirListing where
  | entries (es : List DirEntry)
  | permissionDenied
  | raised (msg : String)
deriving DecidableEq, Repr

/-- The effectful environment the tools run against, keyed by the path
strings the tools receive (path resolution is folded into the keying). -/
structure World where
  fs : String → FileState
  runCommand : String → Option String → Int → CmdOutcome
  writeFile : String → String → Bool → WriteOutcome
  listDir : String → DirListing

/-- Python whitespace characters recognised by `str.strip` / `str.rstrip`:
space, tab, newline, carriage return, vertical tab, form feed. -/
def pySpace (c : Char) : Bool :=
  decide (c.toNat = 32) || decide (c.toNat = 9) || decide (c.toNat = 10) ||
  decide (c.toNat = 13) || decide (c.toNat = 11) || decide (c.toNat = 12)

/-- Strip trailing whitespace from a character list. -/
def rstripL (l : List Char) : List Char :=
  (l.reverse.dropWhile pySpace).reverse

/-- Strip leading and trailing whitespace from a character list. -/
def stripL (l : List Char) : List Char :=
  ((l.dropWhile pySpace).reverse.dropWhile pySpace).reverse

/-- Python `str.rstrip()`. -/
def pyRstrip (s : String) : String :=
  String.mk (rstripL s.toList)

/-- Python `str.strip()`. -/
def pyStrip (s : String) : String :=
  String.mk (stripL s.toList)

/-- ASCII uppercasing of a character list (Python `str.upper()` on ASCII
text). -/
def upperL (l : List Char) : List Char :=
  l.map Char.toUpper

/-- Python `str.upper()`. -/
def pyUpper (s : String) : String :=
  String.mk (upperL s.toList)

/-- Python substring containment `needle in hay`. -/
def containsTok (needle : List Char) : List Char → Bool
  | [] => needle.isEmpty
  | c :: rest => needle.isPrefixOf (c :: rest) || containsTok needle rest

/-- Declared keyword parameters of a tool's `execute` method. -/
structure ParamSpec where
  required : List String
  optional : List String

/-- True when calling `execute(**args)` raises a TypeError at binding
time: an unexpected keyword argument, or a missing required one. -/
def bindMismatch (ps : ParamSpec) (args : Args) : Bool :=
  args.any (fun kv => !(ps.required.contains kv.1 || ps.optional.contains kv.1)) ||
  ps.required.any (fun k => (lookupArg args k).isNone)

/-- Outcome of calling a tool's `execute(**args)` from the registry:
either a returned `ToolResult`, or a TypeError raised at argument
binding. -/
inductive CallOutcome where
  | ok (r : ToolResult)
  | typeError (msg : String)
deriving DecidableEq, Repr

/-- Failure result a tool's own broad `except Exception` produces when an
argument bound fine by name but has an unusable runtime type (e.g. an
`int` passed where a path string is consumed); the exact `str(e)` text is
abstracted. -/
def internalTypeFailure : ToolResult :=
  { success := false, output := "", error := some "TypeError" }

/-- A tool: name, description, permission tags, declared parameters, and
the body of `execute` run after successful keyword binding. -/
structure BaseTool where
  name : String
  description : String
  permissions : List Permission
  params : ParamSpec
  body : World → Args → ToolResult

/-- `BaseTool.requires_explicit_permission` (`tools/base.py` lines 97-100). -/
def BaseTool.requires_explicit_permission (t : BaseTool) : Bool :=
  t.permissions.any Permission.requires_explicit_permission

/-- `BaseTool.create_tool_call` (`tools/base.py` lines 112-121). -/
def BaseTool.create_tool_call (t : BaseTool) (arguments : Args) (call_id : String := "") :
    ToolCall :=
  { tool_name := t.name
    tool_description := t.description
    arguments := arguments
    permissions := t.permissions
    requires_permission := t.requires_explicit_permission
    call_id := call_id }

/-- Error text of the `f"File too large ..."` message (`read_file.py`). -/
def fileTooLargeError (size : Nat) : String :=
  "File too large (" ++ toString size ++ " bytes). Maximum size is 1MB."

/-- The truncation marker appended once `max_lines` lines were emitted
(`read_file.py` line 70). -/
def truncationNote (max_lines : Int) : String :=
  "\n... (truncated, showing first " ++ toString max_lines ++ " lines)"

/-- The line-reading loop of `ReadFileTool.execute` (`read_file.py` lines
67-73): emit `rstrip`ped lines while the index is below `max_lines`, then
the truncation note. -/
def readKept (max_lines : Int) : Nat → List String → List String
  | _, [] => []
  | i, l :: rest =>
    if (i : Int) ≥ max_lines then [truncationNote max_lines]
    else pyRstrip l :: readKept max_lines (i + 1) rest

/-- `ReadFileTool.execute` (`read_file.py` lines 36-97) over typed
arguments. -/
def read_file_execute (w : World) (path : String) (max_lines : Int) : ToolResult :=
  match w.fs path with
  | .missing =>
    { success := false, output := "", error := some ("File does not exist: " ++ path) }
  | .directory =>
    { success := false, output := "", error := some ("Path is not a file: " ++ path) }
  | .file size rd =>
    if size > 1000000 then
      { success := false, output := "", error := some (fileTooLargeError size) }
    else
      match rd with
      | .binary =>
        { success := false, output := ""
          error := some ("Cannot read file as text (binary file?): " ++ path) }
      | .permissionDenied =>
        { success := false, output := "", error := some ("Permission denied reading: " ++ path) }
      | .ioError msg =>
        { success := false, output := "", error := some msg }
      | .text fileLines =>
        let content := String.intercalate "\n" (readKept max_lines 0 fileLines)
        { success := true
          output := "Contents of \x27" ++ path ++ "\x27:\n```\n" ++ content ++ "\n```" }

/-- Keyword-argument shim for `ReadFileTool.execute(path, max_lines=500)`. -/
def read_file_body (w : World) (args : Args) : ToolResult :=
  match lookupArg args "path" with
  | some (.str path) =>
    match lookupArg args "max_lines" with
    | Option.none => read_file_execute w path 500
    | some (.int ml) => read_file_execute w path ml
    | some _ => internalTypeFailure
  | _ => internalTypeFailure

/-- One formatted line of `ReadDirectoryTool.execute`'s listing
(`read_dir.py` lines 60-65). -/
def formatDirEntry (e : DirEntry) : String :=
  "[" ++ (if e.isDir then "dir" else "file") ++ "] " ++ e.name ++
    (if e.isDir then "" else " (" ++ toString e.size ++ " bytes)")

/-- `ReadDirectoryTool.execute` (`read_dir.py` lines 36-86) over typed
arguments. -/
def read_dir_execute (w : World) (path : String) (show_hidden : Bool) : ToolResult :=
  match w.fs path with
  | .missing =>
    { success := false, output := "", error := some ("Directory does not exist: " ++ path) }
  | .file _ _ =>
    { success := false, output := "", error := some ("Path is not a directory: " ++ path) }
  | .directory =>
    match w.listDir path with
    | .permissionDenied =>
      { success := false, output := "", error := some ("Permission denied accessing: " ++ path) }
    | .raised msg =>
      { success := false, output := "", error := some msg }
    | .entries es =>
      let kept := es.filter (fun e => show_hidden || !(e.name.startsWith "."))
      let formatted := kept.map formatDirEntry
      let output :=
        if formatted = [] then "Directory \x27" ++ path ++ "\x27 is empty."
        else "Contents of \x27" ++ path ++ "\x27:\n" ++ String.intercalate "\n" formatted
      { success := true, output := output }

/-- Keyword-argument shim for `ReadDirectoryTool.execute(path, show_hidden=False)`;
`show_hidden` is consumed by truthiness. -/
def read_dir_body (w : World) (args : Args) : ToolResult :=
  match lookupArg args "path" with
  | some (.str path) =>
    let sh := (lookupArg args "show_hidden").getD (PyValue.bool false)
    read_dir_execute w path sh.truthy
  | _ => internalTypeFailure

/-- `WriteFileTool.execute` (`write_file.py` lines 40-71) over typed
arguments. -/
def write_file_execute (w : World) (path content : String) (append : Bool) : ToolResult :=
  match w.writeFile path content append with
  | .written =>
    let action := if append then "Appended to" else "Wrote to"
    { success := true
      output := action ++ " file: " ++ path ++ " (" ++ toString content.length ++ " characters)" }
  | .permissionDenied =>
    { success := false, output := "", error := some ("Permission denied writing to: " ++ path) }
  | .raised msg =>
    { success := false, output := "", error := some msg }

/-- Keyword-argument shim for `WriteFileTool.execute(path, content, append=False)`;
`append` is consumed by truthiness. -/
def write_file_body (w : World) (args : Args) : ToolResult :=
  match lookupArg args "path", lookupArg args "content" with
  | some (.str path), some (.str content) =>
    let ap := (lookupArg args "append").getD (PyValue.bool false)
    write_file_execute w path content ap.truthy
  | _, _ => internalTypeFailure

/-- The stdout/stderr combination of `RunCommandTool.execute`
(`run_cmd.py` lines 70-76): nonempty streams are labelled separately and
joined; with no output at all, a placeholder. -/
def combineOutput (stdout stderr : String) : String :=
  let parts :=
    (if stdout ≠ "" then ["stdout:\n" ++ stdout] else []) ++
    (if stderr ≠ "" then ["stderr:\n" ++ stderr] else [])
  if parts = [] then "(no output)" else String.intercalate "\n" parts

/-- `RunCommandTool.execute` (`run_cmd.py` lines 42-102) over typed
arguments; `working_dir = some wd` with `wd ≠ ""` is truthy and triggers
the existence check. -/
def run_cmd_execute (w : World) (command : String) (working_dir : Option String)
    (timeout : Int) : ToolResult :=
  let cwdResult : Except ToolResult (Option String) :=
    match working_dir with
    | Option.none => Except.ok Option.none
    | some wd =>
      if wd ≠ "" then
        if w.fs wd = FileState.missing then
          Except.error
            { success := false, output := ""
              error := some ("Working directory does not exist: " ++ wd) }
        else Except.ok (some wd)
      else Except.ok Option.none
  match cwdResult with
  | .error r => r
  | .ok cwd =>
    match w.runCommand command cwd timeout with
    | .completed rc sout serr =>
      let output := combineOutput sout serr
      if rc ≠ 0 then
        { success := false, output := output
          error := some ("Command exited with code " ++ toString rc) }
      else
        { success := true, output := "Command executed successfully:\n" ++ output }
    | .timedOut =>
      { success := false, output := ""
        error := some ("Command timed out after " ++ toString timeout ++ " seconds") }
    | .raised msg =>
      { success := false, output := "", error := some msg }

/-- Keyword-argument shim for
`RunCommandTool.execute(command, working_dir=None, timeout=30)`. -/
def run_cmd_body (w : World) (args : Args) : ToolResult :=
  match lookupArg args "command" with
  | some (.str command) =>
    let wdv := (lookupArg args "working_dir").getD PyValue.pynone
    let tov := (lookupArg args "timeout").getD (PyValue.int 30)
    match tov with
    | .int timeout =>
      match wdv with
      | .pynone => run_cmd_execute w command Option.none timeout
      | .str wd => run_cmd_execute w command (some wd) timeout
      | other =>
        if other.truthy then internalTypeFailure
        else run_cmd_execute w command Option.none timeout
    | _ => internalTypeFailure
  | _ => internalTypeFailure

/-- `ReadDirectoryTool` (`read_dir.py`). -/
def read_dir_tool : BaseTool :=
  { name := "read_dir"
    description := "List all files and subdirectories in a given directory path. Returns a list of file/folder names with their types."
    permissions := [.fs_read]
    params := { required := ["path"], optional := ["show_hidden"] }
    body := read_dir_body }

/-- `ReadFileTool` (`read_file.py`). -/
def read_file_tool : BaseTool :=
  { name := "read_file"
    description := "Read and return the contents of a text file. Useful for viewing source code, configuration files, documents, etc."
    permissions := [.fs_read]
    params := { required := ["path"], optional := ["max_lines"] }
    body := read_file_body }

/-- `WriteFileTool` (`write_file.py`). -/
def write_file_tool : BaseTool :=
  { name := "write_file"
    description := "Write or create a file with the given content. Can create new files or overwrite existing ones. Use with caution."
    permissions := [.fs_write]
    params := { required := ["path", "content"], optional := ["append"] }
    body := write_file_body }

/-- `RunCommandTool` (`run_cmd.py`). -/
def run_cmd_tool : BaseTool :=
  { name := "run_cmd"
    description := "Execute a shell command and return its output. Use for running scripts, installing packages, or system operations. Be careful with destructive commands."
    permissions := [.run_command]
    params := { required := ["command"], optional := ["working_dir", "timeout"] }
    body := run_cmd_body }

/-- The default registration order of `ToolRegistry._register_default_tools`
(`registry.py` lines 23-28). -/
def registry_tools : List BaseTool :=
  [read_dir_tool, read_file_tool, write_file_tool, run_cmd_tool]

/-- `ToolRegistry.get` (`registry.py` lines 35-37). -/
def registry_get (name : String) : Option BaseTool :=
  registry_tools.find? (fun t => t.name == name)

/-- Message abstraction for the text of a binding-time TypeError. -/
def bindErrorMsg : String := "unexpected or missing keyword arguments"

/-- Calling a tool's `execute(**args)`: a keyword-binding mismatch raises
a TypeError, otherwise the body runs. -/
def BaseTool.run (t : BaseTool) (w : World) (args : Args) : CallOutcome :=
  if bindMismatch t.params args then .typeError bindErrorMsg
  else .ok (t.body w args)

/-- `ToolRegistry.execute_tool` (`registry.py` lines 57-74). -/
def execute_tool (w : World) (name : String) (args : Args) : ToolResult :=
  match registry_get name with
  | Option.none =>
    { success := false, output := "", error := some ("Unknown tool: " ++ name) }
  | some tool =>
    match tool.run w args with
    | .ok r => r
    | .typeError e =>
      { success := false, output := ""
        error := some ("Invalid arguments for tool " ++ name ++ ": " ++ e) }

/-- A structured tool call as the inference backend returns it
(`response.tool_calls` entries): name, argument mapping, and the optional
backend-provided identifier (`tc.get("id", str(uuid.uuid4()))`). -/
structure RawToolCall where
  name : String
  args : Args
  id : Option String
deriving DecidableEq, Repr

/-- A LangChain conversation message as the agent service builds them. -/
inductive LCMessage where
  | system (content : String)
  | human (content : String)
  | ai (content : String) (toolCalls : List RawToolCall)
  | tool (content : String) (tool_call_id : String)
deriving DecidableEq, Repr

/-- One entry of `state.tool_execution_context` (`service.py`): tool name,
arguments, and the result dict. -/
structure ContextEntry where
  tool_name : String
  arguments : Args
  result : ToolResult
deriving DecidableEq, Repr

/-- `AgentState` (`agent/state.py`). -/
structure AgentState where
  messages : List LCMessage := []
  pending_tool_calls : List ToolCall := []
  completed_tool_calls : List (String × ToolResult) := []
  denied_tool_calls : Finset String := ∅
  is_waiting_for_permission : Bool := false
  current_response : String := ""
  tool_execution_context : List ContextEntry := []
  in_tool_chain : Bool := false

/-- Python dict assignment `d[k] = v`: overwrite in place if the key is
present, else append the binding. -/
def dictInsert (d : List (String × ToolResult)) (k : String) (v : ToolResult) :
    List (String × ToolResult) :=
  if d.any (fun kv => kv.1 == k) then
    d.map (fun kv => if kv.1 == k then (k, v) else kv)
  else d ++ [(k, v)]

/-- Python dict lookup (first binding of the key). -/
def dictLookup (d : List (String × ToolResult)) (k : String) : Option ToolResult :=
  match d with
  | [] => Option.none
  | kv :: rest => if kv.1 = k then some kv.2 else dictLookup rest k

/-- The synthetic Result built for a denied call (`service.py` lines
387-392). -/
def deniedToolResult : ToolResult :=
  { success := false, output := ""
    error := some "User denied permission for this tool call." }

/-- One entry of the `tool_results` list `execute_tool_calls` accumulates
(`service.py` lines 393-398 and 412-417). -/
structure ToolResultEntry where
  call_id : String
  tool_name : String
  arguments : Args
  result : ToolResult
deriving DecidableEq, Repr

/-- Outcome of the execution loop of `execute_tool_calls`: the
accumulated `tool_results`, a trace of the call identifiers actually
dispatched to `tool_registry.execute_tool`, and the mutated state. -/
structure ExecOutcome where
  tool_results : List ToolResultEntry
  executed_call_ids : List String
  state : AgentState

/-- One iteration of the loop body of `AgentService.execute_tool_calls`
(`service.py` lines 382-424): a denied identifier yields the synthetic
denial Result without dispatch; an approved or no-permission call is
dispatched to the registry and recorded in the completed map; anything
else is skipped. Returns the result entries, the dispatched identifiers,
and the updated state. -/
def processToolCall (w : World) (approved denied : Finset String) (s : AgentState)
    (tc : ToolCall) : List ToolResultEntry × List String × AgentState :=
  if tc.call_id ∈ denied then
    ([{ call_id := tc.call_id, tool_name := tc.tool_name, arguments := tc.arguments,
        result := deniedToolResult }],
     [],
     { s with tool_execution_context := s.tool_execution_context ++
         [{ tool_name := tc.tool_name, arguments := tc.arguments, result := deniedToolResult }] })
  else if tc.call_id ∈ approved ∨ tc.requires_permission = false then
    let r := execute_tool w tc.tool_name tc.arguments
    ([{ call_id := tc.call_id, tool_name := tc.tool_name, arguments := tc.arguments,
        result := r }],
     [tc.call_id],
     { s with
        completed_tool_calls := dictInsert s.completed_tool_calls tc.call_id r
        tool_execution_context := s.tool_execution_context ++
          [{ tool_name := tc.tool_name, arguments := tc.arguments, result := r }] })
  else ([], [], s)

/-- The `for tool_call in state.pending_tool_calls` loop of
`execute_tool_calls`, threading the state through each iteration. -/
def executeLoop (w : World) (approved denied : Finset String) (s : AgentState) :
    List ToolCall → ExecOutcome
  | [] => { tool_results := [], executed_call_ids := [], state := s }
  | tc :: rest =>
    let step := processToolCall w approved denied s tc
    let out := executeLoop w approved denied step.2.2 rest
    { tool_results := step.1 ++ out.tool_results
      executed_call_ids := step.2.1 ++ out.executed_call_ids
      state := out.state }

/-- The state-mutating phase of `AgentService.execute_tool_calls`
(`service.py` lines 374-428): record the denied identifiers in the
denied-set, run the loop over the pending calls, then clear the pending
list and the waiting flag. The continuation
(`_continue_with_tool_results`) consumes the returned `tool_results`. -/
def execute_tool_calls (w : World) (state : AgentState)
    (approved_call_ids denied_call_ids : Finset String) : ExecOutcome :=
  let s0 := { state with denied_tool_calls := state.denied_tool_calls ∪ denied_call_ids }
  let out := executeLoop w approved_call_ids denied_call_ids s0 state.pending_tool_calls
  { out with state :=
      { out.state with pending_tool_calls := [], is_waiting_for_permission := false } }

/-- The tool-call extraction loop shared by
`AgentService._process_tool_message` (`service.py` lines 328-341) and
`_continue_with_tool_results` (lines 486-497): each structured call whose
name resolves in the registry becomes a `ToolCall` via
`create_tool_call`, with the backend identifier or a freshly minted one
(`fresh` models `str(uuid.uuid4())` per iteration); unknown names are
skipped. -/
def extract_pending_calls (fresh : Nat → String) : Nat → List RawToolCall → List ToolCall
  | _, [] => []
  | i, rc :: rest =>
    match registry_get rc.name with
    | some tool =>
      tool.create_tool_call rc.args (rc.id.getD (fresh i)) ::
        extract_pending_calls fresh (i + 1) rest
    | Option.none => extract_pending_calls fresh (i + 1) rest

/-- Outcome of the router backend call in `AgentService._route_message`:
the router LLM binding is unavailable, the invoke raised, or a response
object (with or without a `content` attribute) came back. -/
inductive RouterResponse where
  | unavailable
  | raised (msg : String)
  | ok (hasContent : Bool) (content : String)
deriving DecidableEq, Repr

/-- `AgentService._route_message` (`service.py` lines 152-177): `true`
(TOOLS) exactly when a response with content arrived and
`"TOOLS" in response.content.strip().upper()`; an unavailable binding or
a raised backend call yields `false` (CHAT). -/
def route_message (resp : RouterResponse) : Bool :=
  match resp with
  | .unavailable => false
  | .raised _ => false
  | .ok hasContent content =>
    let decision := if hasContent then pyUpper (pyStrip content) else ""
    containsTok "TOOLS".toList decision.toList

/-- The action `ChatController._on_agent_response_ready` takes on a batch
of tool calls (`chat_controller.py` lines 562-587): hold the whole batch
and surface the permission-requiring ones, execute the whole batch now
with the auto-approve identifiers approved, or finalize. -/
inductive AgentReadyAction where
  | holdForPermission (stored surfaced : List ToolCall)
  | executeNow (stored : List ToolCall) (approved_ids : Finset String)
  | finalize
deriving DecidableEq

/-- `ChatController._on_agent_response_ready` (`chat_controller.py` lines
562-587): with any permission-requiring call present, all calls are
stored pending and only the permission-requiring ones are surfaced
(`toolCallsPending`); with only auto-approvable calls, their identifiers
are approved and execution starts immediately; with no calls, the
response is finalized. -/
def on_agent_response_ready (tool_calls : List ToolCall) : AgentReadyAction :=
  let permission_required := tool_calls.filter (fun tc => tc.requires_permission)
  let auto_approve := tool_calls.filter (fun tc => !tc.requires_permission)
  if permission_required ≠ [] then
    .holdForPermission tool_calls permission_required
  else if auto_approve ≠ [] then
    .executeNow tool_calls (auto_approve.map (fun tc => tc.call_id)).toFinset
  else .finalize

/-- The set of call identifiers the controller submits for immediate
execution in the turn that produced the batch. -/
def AgentReadyAction.executedNow : AgentReadyAction → Finset String
  | .executeNow _ ids => ids
  | _ => ∅

/-- The calls surfaced to the permission UI in this turn. -/
def AgentReadyAction.surfacedCalls : AgentReadyAction → List ToolCall
  | .holdForPermission _ surfaced => surfaced
  | _ => []

/-- `REQUIRED_AGENT_MODELS` (`agent/constants.py` lines 4-7). -/
def REQUIRED_AGENT_MODELS : List String := ["gemma3:270m", "functiongemma:270m"]

/-- Python `required.split(":")[0]`. -/
def modelBase (required : String) : String :=
  (required.splitOn ":").headD ""

/-- The inner availability loop of `check_required_models`
(`agent/utils.py` lines 19-26): only an exact string match sets `found`;
a mere base-prefix match keeps scanning. -/
def findRequired (required : String) : List String → Bool
  | [] => false
  | a :: rest =>
    if a = required ∨ (modelBase required ++ ":").isPrefixOf a then
      if a = required then true else findRequired required rest
    else findRequired required rest

/-- `check_required_models` (`agent/utils.py` lines 5-30). -/
def check_required_models (ollama_models : List String) : Bool × List String :=
  let missing := REQUIRED_AGENT_MODELS.filter (fun r => !(findRequired r ollama_models))
  (missing.length == 0, missing)

/-! ### General lemmas about the string helpers -/

/-- A valid scalar value round-trips through `Char.ofNat`. -/
theorem charToNat_ofNat (n : Nat) (h : n.isValidChar) : (Char.ofNat n).toNat = n := by
  simp [Char.ofNat, h, Char.ofNatAux, Char.toNat, UInt32.toNat]

/-- Uppercasing a lowercase letter subtracts 32 from its scalar value. -/
theorem toUpper_toNat_of_lower (c : Char) (h : c.toNat ≥ 97 ∧ c.toNat ≤ 122) :
    (Char.toUpper c).toNat = c.toNat - 32 := by
  unfold Char.toUpper
  rw [if_pos h]
  exact charToNat_ofNat _ (by unfold Nat.isValidChar; omega)

/-- Uppercasing fixes everything but lowercase letters. -/
theorem toUpper_eq_of_not_lower (c : Char) (h : ¬(c.toNat ≥ 97 ∧ c.toNat ≤ 122)) :
    Char.toUpper c = c := by
  unfold Char.toUpper
  rw [if_neg h]

/-- ASCII uppercasing neither creates nor destroys whitespace. -/
theorem pySpace_toUpper (c : Char) : pySpace (Char.toUpper c) = pySpace c := by
  by_cases h : c.toNat ≥ 97 ∧ c.toNat ≤ 122
  · have h2 := toUpper_toNat_of_lower c h
    have l : pySpace (Char.toUpper c) = false := by
      simp only [pySpace, h2, Bool.or_eq_false_iff, decide_eq_false_iff_not]
      omega
    have r : pySpace c = false := by
      simp only [pySpace, Bool.or_eq_false_iff, decide_eq_false_iff_not]
      omega
    rw [l, r]
  · rw [toUpper_eq_of_not_lower c h]

/-- `containsTok` decides the infix (substring) relation. -/
theorem containsTok_iff_occurs (needle : List Char) (hay : List Char) :
    containsTok needle hay = true ↔ needle <:+: hay := by
  induction hay with
  | nil =>
    rw [containsTok, List.infix_nil, List.isEmpty_iff]
  | cons c rest ih =>
    rw [containsTok, Bool.or_eq_true, ih, List.infix_cons_iff,
      List.isPrefixOf_iff_prefix]

/-- Dropping a leading run of `p`-characters cannot lose an occurrence
of a pattern whose first character falsifies `p`. -/
theorem cons_infix_dropWhile_iff {α : Type} (p : α → Bool) (c : α) (tok : List α)
    (l : List α) (hc : p c = false) :
    (c :: tok) <:+: l.dropWhile p ↔ (c :: tok) <:+: l := by
  induction l with
  | nil => rw [List.dropWhile_nil]
  | cons a rest ih =>
    rw [List.dropWhile_cons]
    by_cases hp : p a
    · rw [if_pos hp, ih, List.infix_cons_iff]
      constructor
      · exact Or.inr
      · rintro (hpre | hinf)
        · rw [List.cons_prefix_cons] at hpre
          rw [hpre.1, hp] at hc
          exact absurd hc (by simp)
        · exact hinf
    · rw [if_neg hp]

/-- Uppercasing commutes with two-sided whitespace stripping. -/
theorem upperL_stripL_comm (l : List Char) : upperL (stripL l) = stripL (upperL l) := by
  have hdw : ∀ m : List Char,
      List.map Char.toUpper (List.dropWhile pySpace m) =
        List.dropWhile pySpace (List.map Char.toUpper m) := by
    intro m
    rw [List.dropWhile_map]
    have : pySpace ∘ Char.toUpper = pySpace := funext pySpace_toUpper
    rw [this]
  unfold stripL upperL
  rw [List.map_reverse, hdw, List.map_reverse, hdw]

/-- Infixes of a reversed list are the reversed infixes. -/
theorem occursIn_reverse_iff {α : Type} (tok X : List α) :
    tok <:+: X.reverse ↔ tok.reverse <:+: X := by
  constructor
  · intro h
    have h2 := List.IsInfix.reverse h
    rwa [List.reverse_reverse] at h2
  · intro h
    have h2 := List.IsInfix.reverse h
    rwa [List.reverse_reverse] at h2

/-- Stripping surrounding whitespace preserves occurrences of a pattern
whose first and last characters are not whitespace. -/
theorem infix_stripL_iff (tok l : List Char) (c d : Char) (rest rest2 : List Char)
    (h1 : tok = c :: rest) (h2 : tok.reverse = d :: rest2)
    (hc : pySpace c = false) (hd : pySpace d = false) :
    tok <:+: stripL l ↔ tok <:+: l := by
  unfold stripL
  rw [occursIn_reverse_iff, h2,
    cons_infix_dropWhile_iff pySpace d rest2 (List.dropWhile pySpace l).reverse hd,
    ← h2, occursIn_reverse_iff, List.reverse_reverse, h1,
    cons_infix_dropWhile_iff pySpace c rest l hc, ← h1]

/-- Substring containment over `String`: the needle occurs inside the
haystack. -/
def strInfix (needle hay : String) : Prop :=
  needle.toList <:+: hay.toList

/-! ### C3: router decision -/

/-- C3: the router returns ACTION (decides `true`, TOOLS) if and only if
the backend produced a response with content whose case-normalized text
contains the action token `"TOOLS"`; when the backend binding is
unavailable, the call raises, or the response has no content, the router
returns NO_ACTION (`false`), never ACTION. -/
theorem c3_router_action_iff_token (resp : RouterResponse) :
    route_message resp = true ↔
      ∃ content, resp = RouterResponse.ok true content ∧
        strInfix "TOOLS" (pyUpper content) := by
  cases resp with
  | unavailable =>
    simp only [route_message]
    constructor
    · intro h; exact absurd h (by simp)
    · rintro ⟨content, h, -⟩; exact absurd h (by simp)
  | raised msg =>
    simp only [route_message]
    constructor
    · intro h; exact absurd h (by simp)
    · rintro ⟨content, h, -⟩; exact absurd h (by simp)
  | ok hasContent content =>
    cases hasContent with
    | false =>
      have hroute : route_message (RouterResponse.ok false content) = false := rfl
      rw [hroute]
      constructor
      · intro h; exact absurd h (by simp)
      · rintro ⟨content2, h, -⟩
        exact absurd h (by simp)
    | true =>
      have hroute : route_message (RouterResponse.ok true content) =
          containsTok "TOOLS".toList (pyUpper (pyStrip content)).toList := rfl
      rw [hroute, containsTok_iff_occurs]
      have hlist : (pyUpper (pyStrip content)).toList = stripL (upperL content.toList) := by
        show upperL (stripL content.toList) = stripL (upperL content.toList)
        exact upperL_stripL_comm content.toList
      rw [hlist]
      rw [infix_stripL_iff ("TOOLS".toList) (upperL content.toList) 'T' 'S'
        ['O', 'O', 'L', 'S'] ['L', 'O', 'O', 'T'] rfl rfl (by decide) (by decide)]
      constructor
      · intro h
        exact ⟨content, rfl, h⟩
      · rintro ⟨content2, heq, h⟩
        have hcc : content2 = content := by
          injection heq with h1 h2
          exact h2.symm
        rw [hcc] at h
        exact h

/-! ### C2: requires_permission derivation -/

/-- C2: for every tool and argument mapping, the created Invocation has
`requires_permission = true` iff at least one of the tool's permission
tags requires explicit approval; a tool whose only tag is the
filesystem-read tag yields `requires_permission = false`, and any tool
whose tags include FS_WRITE, INTERNET or RUN_CMD yields
`requires_permission = true`. -/
theorem c2_requires_permission_iff (t : BaseTool) (args : Args) (cid : String) :
    ((t.create_tool_call args cid).requires_permission = true ↔
      ∃ p ∈ (t.create_tool_call args cid).permissions,
        p.requires_explicit_permission = true) ∧
    (t.permissions = [Permission.fs_read] →
      (t.create_tool_call args cid).requires_permission = false) ∧
    ((Permission.fs_write ∈ t.permissions ∨ Permission.internet ∈ t.permissions ∨
        Permission.run_command ∈ t.permissions) →
      (t.create_tool_call args cid).requires_permission = true) := by
  have hperm : (t.create_tool_call args cid).requires_permission =
      t.permissions.any Permission.requires_explicit_permission := rfl
  have hperms : (t.create_tool_call args cid).permissions = t.permissions := rfl
  refine ⟨?_, ?_, ?_⟩
  · rw [hperm, hperms, List.any_eq_true]
  · intro h
    rw [hperm, h]
    rfl
  · intro h
    rw [hperm, List.any_eq_true]
    rcases h with h | h | h
    · exact ⟨_, h, rfl⟩
    · exact ⟨_, h, rfl⟩
    · exact ⟨_, h, rfl⟩

/-- Witness for C2 at the concrete read-file and run-command tools. -/
theorem c2_witness :
    (read_file_tool.permissions = [Permission.fs_read] ∧
      (read_file_tool.create_tool_call [] "c1").requires_permission = false) ∧
    (Permission.run_command ∈ run_cmd_tool.permissions ∧
      (run_cmd_tool.create_tool_call [] "c2").requires_permission = true) :=
  ⟨⟨rfl, (c2_requires_permission_iff read_file_tool [] "c1").2.1 rfl⟩,
   ⟨by decide, (c2_requires_permission_iff run_cmd_tool [] "c2").2.2
      (Or.inr (Or.inr (by decide)))⟩⟩

/-! ### C9: required-model availability check -/

/-- The inner loop of `check_required_models` finds a required model iff
it occurs verbatim in the available list: the base-name branch never sets
the flag. -/
theorem findRequired_eq_contains (r : String) (l : List String) :
    findRequired r l = l.contains r := by
  induction l with
  | nil => rfl
  | cons a rest ih =>
    rw [findRequired, List.contains_cons]
    by_cases h : a = r
    · rw [if_pos (Or.inl h), if_pos h]
      subst h
      simp
    · have hb : (r == a) = false := beq_eq_false_iff_ne.mpr (fun hh => h hh.symm)
      by_cases hp : ((modelBase r ++ ":").isPrefixOf a : Bool)
      · rw [if_pos (Or.inr hp), if_neg h, ih, hb, Bool.false_or]
      · rw [if_neg (fun hor => hor.elim h hp), ih, hb, Bool.false_or]

/-- C9: `check_required_models` reports `all_present = true` with empty
`missing` iff every required model name occurs as an exact string among
the available names; otherwise `missing` is exactly the required names
with no exact match (base-prefix matches such as a different tag of the
same model do not count as present). -/
theorem c9_check_required_models_exact (avail : List String) :
    ((check_required_models avail).1 = true ↔
      ∀ r ∈ REQUIRED_AGENT_MODELS, r ∈ avail) ∧
    (check_required_models avail).2 =
      REQUIRED_AGENT_MODELS.filter (fun r => !(avail.contains r)) := by
  have hfilter : REQUIRED_AGENT_MODELS.filter (fun r => !(findRequired r avail)) =
      REQUIRED_AGENT_MODELS.filter (fun r => !(avail.contains r)) := by
    apply List.filter_congr
    intro x hx
    rw [findRequired_eq_contains]
  constructor
  · show ((REQUIRED_AGENT_MODELS.filter
        (fun r => !(findRequired r avail))).length == 0) = true ↔ _
    rw [beq_iff_eq, List.length_eq_zero, hfilter, List.filter_eq_nil_iff]
    constructor
    · intro h r hr
      have h2 := h r hr
      simpa using h2
    · intro h r hr
      simpa using h r hr
  · show REQUIRED_AGENT_MODELS.filter (fun r => !(findRequired r avail)) = _
    exact hfilter

/-! ### C4: registry execute totality -/

/-- C4: `execute_tool` is total; an unregistered name yields a failure
Result with a populated "Unknown tool" error, and an argument mapping
that does not fit the named tool's keyword signature yields a failure
Result with a populated "Invalid arguments" error instead of an
exception. -/
theorem c4_execute_tool_total_errors (w : World) (name : String) (args : Args) :
    (registry_get name = Option.none →
      execute_tool w name args =
        { success := false, output := "", error := some ("Unknown tool: " ++ name) }) ∧
    (∀ t, registry_get name = some t → bindMismatch t.params args = true →
      execute_tool w name args =
        { success := false, output := ""
          error := some ("Invalid arguments for tool " ++ name ++ ": " ++ bindErrorMsg) }) := by
  constructor
  · intro h
    unfold execute_tool
    rw [h]
  · intro t ht hb
    unfold execute_tool
    rw [ht]
    show (match t.run w args with
      | .ok r => r
      | .typeError e =>
        { success := false, output := ""
          error := some ("Invalid arguments for tool " ++ name ++ ": " ++ e) }) = _
    unfold BaseTool.run
    rw [if_pos hb]

/-- An environment in which every path is missing, every command times
out, every write is denied and every directory is empty; used to
instantiate theorems at concrete inputs. -/
def trivialWorld : World :=
  { fs := fun _ => FileState.missing
    runCommand := fun _ _ _ => CmdOutcome.timedOut
    writeFile := fun _ _ _ => WriteOutcome.permissionDenied
    listDir := fun _ => DirListing.entries [] }

/-- Witness for C4: the unknown name "nope" and a bad keyword for the
read-file tool. -/
theorem c4_witness :
    (registry_get "nope" = Option.none ∧
      execute_tool trivialWorld "nope" [] =
        { success := false, output := "", error := some ("Unknown tool: " ++ "nope") }) ∧
    (bindMismatch read_file_tool.params [("bogus", PyValue.int 1)] = true ∧
      execute_tool trivialWorld "read_file" [("bogus", PyValue.int 1)] =
        { success := false, output := ""
          error := some ("Invalid arguments for tool " ++ "read_file" ++ ": " ++ bindErrorMsg) }) :=
  ⟨⟨rfl, (c4_execute_tool_total_errors trivialWorld "nope" []).1 rfl⟩,
   ⟨rfl, (c4_execute_tool_total_errors trivialWorld "read_file" [("bogus", PyValue.int 1)]).2
      read_file_tool rfl rfl⟩⟩

/-! ### Lemmas about the execution loop -/

/-- A denied identifier makes the loop body synthesize the denial entry,
dispatch nothing, and append the denial to the chain context. -/
theorem processToolCall_denied (w : World) (a d : Finset String) (s : AgentState)
    (tc : ToolCall) (hden : tc.call_id ∈ d) :
    processToolCall w a d s tc =
      ([{ call_id := tc.call_id, tool_name := tc.tool_name, arguments := tc.arguments,
          result := deniedToolResult }],
       [],
       { s with tool_execution_context := s.tool_execution_context ++
           [{ tool_name := tc.tool_name, arguments := tc.arguments,
              result := deniedToolResult }] }) := by
  unfold processToolCall
  rw [if_pos hden]

/-- The loop never touches the denied-identifier set. -/
theorem executeLoop_denied_unchanged (w : World) (a d : Finset String) (l : List ToolCall) :
    ∀ s : AgentState,
    (executeLoop w a d s l).state.denied_tool_calls = s.denied_tool_calls := by
  induction l with
  | nil => intro s; rfl
  | cons tc rest ih =>
    intro s
    show (executeLoop w a d (processToolCall w a d s tc).2.2 rest).state.denied_tool_calls = _
    rw [ih]
    unfold processToolCall
    by_cases h1 : tc.call_id ∈ d
    · rw [if_pos h1]
    · by_cases h2 : tc.call_id ∈ a ∨ tc.requires_permission = false
      · rw [if_neg h1, if_pos h2]
      · rw [if_neg h1, if_neg h2]

/-- One loop step only ever appends to the chain context. -/
theorem processToolCall_context_mono (w : World) (a d : Finset String) (s : AgentState)
    (tc : ToolCall) (e : ContextEntry) (h : e ∈ s.tool_execution_context) :
    e ∈ (processToolCall w a d s tc).2.2.tool_execution_context := by
  unfold processToolCall
  by_cases h1 : tc.call_id ∈ d
  · rw [if_pos h1]
    exact List.mem_append_left _ h
  · by_cases h2 : tc.call_id ∈ a ∨ tc.requires_permission = false
    · rw [if_neg h1, if_pos h2]
      exact List.mem_append_left _ h
    · rw [if_neg h1, if_neg h2]
      exact h

/-- The loop only ever appends to the chain context. -/
theorem executeLoop_context_mono (w : World) (a d : Finset String) (l : List ToolCall) :
    ∀ (s : AgentState) (e : ContextEntry), e ∈ s.tool_execution_context →
    e ∈ (executeLoop w a d s l).state.tool_execution_context := by
  induction l with
  | nil => intro s e h; exact h
  | cons tc rest ih =>
    intro s e h
    exact ih _ _ (processToolCall_context_mono w a d s tc e h)

/-- Every identifier the loop dispatches to the registry is outside the
denied set. -/
theorem executeLoop_executed_not_denied (w : World) (a d : Finset String)
    (l : List ToolCall) : ∀ (s : AgentState) (x : String),
    x ∈ (executeLoop w a d s l).executed_call_ids → x ∉ d := by
  induction l with
  | nil =>
    intro s x h
    exact absurd h (List.not_mem_nil x)
  | cons tc rest ih =>
    intro s x h
    have h0 : x ∈ (processToolCall w a d s tc).2.1 ++
        (executeLoop w a d (processToolCall w a d s tc).2.2 rest).executed_call_ids := h
    rcases List.mem_append.mp h0 with h1 | h2
    · unfold processToolCall at h1
      by_cases hd1 : tc.call_id ∈ d
      · rw [if_pos hd1] at h1
        exact absurd h1 (List.not_mem_nil x)
      · by_cases hd2 : tc.call_id ∈ a ∨ tc.requires_permission = false
        · rw [if_neg hd1, if_pos hd2] at h1
          have hx := List.mem_singleton.mp h1
          rw [hx]
          exact hd1
        · rw [if_neg hd1, if_neg hd2] at h1
          exact absurd h1 (List.not_mem_nil x)
    · exact ih _ _ h2

/-- A pending call with a denied identifier contributes its synthetic
denial entry to both the result list and the final chain context. -/
theorem executeLoop_denied_entries (w : World) (a d : Finset String) (l : List ToolCall) :
    ∀ (s : AgentState) (tc : ToolCall), tc ∈ l → tc.call_id ∈ d →
    (({ call_id := tc.call_id, tool_name := tc.tool_name, arguments := tc.arguments,
        result := deniedToolResult } : ToolResultEntry) ∈
          (executeLoop w a d s l).tool_results ∧
     ({ tool_name := tc.tool_name, arguments := tc.arguments,
        result := deniedToolResult } : ContextEntry) ∈
          (executeLoop w a d s l).state.tool_execution_context) := by
  induction l with
  | nil =>
    intro s tc h
    exact absurd h (List.not_mem_nil tc)
  | cons tc0 rest ih =>
    intro s tc hmem hden
    rcases List.mem_cons.mp hmem with heq | htail
    · subst heq
      constructor
      · show _ ∈ (processToolCall w a d s tc).1 ++
            (executeLoop w a d (processToolCall w a d s tc).2.2 rest).tool_results
        rw [processToolCall_denied w a d s tc hden]
        exact List.mem_append_left _ (List.mem_singleton.mpr rfl)
      · show _ ∈ (executeLoop w a d
            (processToolCall w a d s tc).2.2 rest).state.tool_execution_context
        apply executeLoop_context_mono
        rw [processToolCall_denied w a d s tc hden]
        exact List.mem_append_right _ (List.mem_singleton.mpr rfl)
    · have hih := ih (processToolCall w a d s tc0).2.2 tc htail hden
      constructor
      · show _ ∈ (processToolCall w a d s tc0).1 ++
            (executeLoop w a d (processToolCall w a d s tc0).2.2 rest).tool_results
        exact List.mem_append_right _ hih.1
      · exact hih.2

/-- Python dict update at one key does not disturb lookups at others. -/
theorem dictLookup_map_overwrite (dmap : List (String × ToolResult)) (k k2 : String)
    (v : ToolResult) (h : k2 ≠ k) :
    dictLookup (dmap.map (fun kv => if kv.1 == k then (k, v) else kv)) k2 =
      dictLookup dmap k2 := by
  induction dmap with
  | nil => rfl
  | cons kv rest ih =>
    show dictLookup ((if kv.1 == k then (k, v) else kv) :: _) k2 = _
    by_cases hk : kv.1 == k
    · rw [if_pos hk]
      unfold dictLookup
      rw [if_neg (fun hh : k = k2 => h hh.symm), ih]
      have hkk : kv.1 = k := by
        exact beq_iff_eq.mp hk
      rw [if_neg (fun hh : kv.1 = k2 => h (hh ▸ hkk))]
  -- when the head key differs from k the head survives unchanged
    · rw [if_neg hk]
      unfold dictLookup
      by_cases hh : kv.1 = k2
      · rw [if_pos hh, if_pos hh]
      · rw [if_neg hh, if_neg hh, ih]

/-- Appending a fresh binding does not disturb lookups at other keys. -/
theorem dictLookup_append_ne (dmap : List (String × ToolResult)) (k k2 : String)
    (v : ToolResult) (h : k2 ≠ k) :
    dictLookup (dmap ++ [(k, v)]) k2 = dictLookup dmap k2 := by
  induction dmap with
  | nil =>
    show dictLookup [(k, v)] k2 = Option.none
    unfold dictLookup
    rw [if_neg (fun hh : k = k2 => h hh.symm)]
    rfl
  | cons kv rest ih =>
    show dictLookup (kv :: (rest ++ [(k, v)])) k2 = _
    unfold dictLookup
    by_cases hh : kv.1 = k2
    · rw [if_pos hh, if_pos hh]
    · rw [if_neg hh, if_neg hh, ih]

/-- `dictInsert` at one key does not disturb lookups at other keys. -/
theorem dictLookup_insert_ne (dmap : List (String × ToolResult)) (k k2 : String)
    (v : ToolResult) (h : k2 ≠ k) :
    dictLookup (dictInsert dmap k v) k2 = dictLookup dmap k2 := by
  unfold dictInsert
  by_cases hany : dmap.any (fun kv => kv.1 == k)
  · rw [if_pos hany]
    exact dictLookup_map_overwrite dmap k k2 v h
  · rw [if_neg hany]
    exact dictLookup_append_ne dmap k k2 v h

/-- The loop never writes a denied identifier into the completed map. -/
theorem executeLoop_completed_preserved (w : World) (a d : Finset String)
    (l : List ToolCall) (c : String) (hc : c ∈ d) : ∀ s : AgentState,
    dictLookup (executeLoop w a d s l).state.completed_tool_calls c =
      dictLookup s.completed_tool_calls c := by
  induction l with
  | nil => intro s; rfl
  | cons tc rest ih =>
    intro s
    show dictLookup (executeLoop w a d
        (processToolCall w a d s tc).2.2 rest).state.completed_tool_calls c = _
    rw [ih]
    unfold processToolCall
    by_cases h1 : tc.call_id ∈ d
    · rw [if_pos h1]
    · by_cases h2 : tc.call_id ∈ a ∨ tc.requires_permission = false
      · rw [if_neg h1, if_pos h2]
        show dictLookup (dictInsert s.completed_tool_calls tc.call_id _) c = _
        exact dictLookup_insert_ne _ _ _ _ (fun hcc => h1 (hcc ▸ hc))
      · rw [if_neg h1, if_neg h2]

/-! ### C1: denial path of execute_tool_calls -/

/-- C1: for every pending tool call whose identifier is in
`denied_call_ids`, `execute_tool_calls` produces a Result with
`success = false` and error exactly
"User denied permission for this tool call.", never dispatches that call
to the registry, and records the denial both in the state's denied-call
set and in the tool-execution context list. -/
theorem c1_denied_call_handling (w : World) (state : AgentState)
    (approved denied : Finset String) (tc : ToolCall)
    (hmem : tc ∈ state.pending_tool_calls) (hden : tc.call_id ∈ denied) :
    deniedToolResult.success = false ∧
    deniedToolResult.error = some "User denied permission for this tool call." ∧
    ({ call_id := tc.call_id, tool_name := tc.tool_name, arguments := tc.arguments,
        result := deniedToolResult } : ToolResultEntry) ∈
      (execute_tool_calls w state approved denied).tool_results ∧
    tc.call_id ∉ (execute_tool_calls w state approved denied).executed_call_ids ∧
    tc.call_id ∈ (execute_tool_calls w state approved denied).state.denied_tool_calls ∧
    ({ tool_name := tc.tool_name, arguments := tc.arguments,
        result := deniedToolResult } : ContextEntry) ∈
      (execute_tool_calls w state approved denied).state.tool_execution_context := by
  have hentries := executeLoop_denied_entries w approved denied state.pending_tool_calls
    { state with denied_tool_calls := state.denied_tool_calls ∪ denied } tc hmem hden
  refine ⟨rfl, rfl, hentries.1, ?_, ?_, hentries.2⟩
  · intro hin
    exact executeLoop_executed_not_denied w approved denied state.pending_tool_calls
      _ tc.call_id hin hden
  · show tc.call_id ∈ (executeLoop w approved denied
      { state with denied_tool_calls := state.denied_tool_calls ∪ denied }
      state.pending_tool_calls).state.denied_tool_calls
    rw [executeLoop_denied_unchanged]
    exact Finset.mem_union.mpr (Or.inr hden)

/-- A concrete run-command invocation used to instantiate the denial
theorems. -/
def deniedDemoCall : ToolCall :=
  run_cmd_tool.create_tool_call [("command", PyValue.str "ls")] "call-1"

/-- A state holding exactly one pending invocation. -/
def pendingDeniedState : AgentState :=
  { pending_tool_calls := [deniedDemoCall] }

/-- Witness for C1 at a concrete one-call state with that call denied. -/
theorem c1_witness :
    (deniedDemoCall ∈ pendingDeniedState.pending_tool_calls ∧
      deniedDemoCall.call_id ∈ ({"call-1"} : Finset String)) ∧
    ({ call_id := deniedDemoCall.call_id, tool_name := deniedDemoCall.tool_name,
        arguments := deniedDemoCall.arguments, result := deniedToolResult } : ToolResultEntry) ∈
      (execute_tool_calls trivialWorld pendingDeniedState ∅ {"call-1"}).tool_results :=
  ⟨⟨List.mem_singleton.mpr rfl, by decide⟩,
   (c1_denied_call_handling trivialWorld pendingDeniedState ∅ {"call-1"} deniedDemoCall
      (List.mem_singleton.mpr rfl) (by decide)).2.2.1⟩

/-! ### C10: denial takes precedence over approval -/

/-- C10: a pending call whose identifier is both denied and approved is
treated as denied: the synthetic denial Result is produced, the call is
never dispatched to the registry, and the completed-call map is unchanged
at that identifier. -/
theorem c10_denial_precedence (w : World) (state : AgentState)
    (approved denied : Finset String) (tc : ToolCall)
    (hmem : tc ∈ state.pending_tool_calls) (hden : tc.call_id ∈ denied)
    (happ : tc.call_id ∈ approved) :
    ({ call_id := tc.call_id, tool_name := tc.tool_name, arguments := tc.arguments,
        result := deniedToolResult } : ToolResultEntry) ∈
      (execute_tool_calls w state approved denied).tool_results ∧
    tc.call_id ∉ (execute_tool_calls w state approved denied).executed_call_ids ∧
    dictLookup (execute_tool_calls w state approved denied).state.completed_tool_calls
        tc.call_id =
      dictLookup state.completed_tool_calls tc.call_id := by
  have hentries := executeLoop_denied_entries w approved denied state.pending_tool_calls
    { state with denied_tool_calls := state.denied_tool_calls ∪ denied } tc hmem hden
  refine ⟨hentries.1, ?_, ?_⟩
  · intro hin
    exact executeLoop_executed_not_denied w approved denied state.pending_tool_calls
      _ tc.call_id hin hden
  · show dictLookup (executeLoop w approved denied
      { state with denied_tool_calls := state.denied_tool_calls ∪ denied }
      state.pending_tool_calls).state.completed_tool_calls tc.call_id = _
    rw [executeLoop_completed_preserved w approved denied state.pending_tool_calls
      tc.call_id hden]

/-- Witness for C10: the same identifier both approved and denied. -/
theorem c10_witness :
    (deniedDemoCall ∈ pendingDeniedState.pending_tool_calls ∧
      deniedDemoCall.call_id ∈ ({"call-1"} : Finset String)) ∧
    dictLookup (execute_tool_calls trivialWorld pendingDeniedState {"call-1"}
        {"call-1"}).state.completed_tool_calls deniedDemoCall.call_id =
      dictLookup pendingDeniedState.completed_tool_calls deniedDemoCall.call_id :=
  ⟨⟨List.mem_singleton.mpr rfl, by decide⟩,
   (c10_denial_precedence trivialWorld pendingDeniedState {"call-1"} {"call-1"}
      deniedDemoCall (List.mem_singleton.mpr rfl) (by decide) (by decide)).2.2⟩

/-! ### C5: unknown tool names are dropped at extraction -/

/-- Every result entry the loop produces is named after one of the
pending calls. -/
theorem executeLoop_results_tool_names (w : World) (a d : Finset String)
    (l : List ToolCall) : ∀ (s : AgentState) (e : ToolResultEntry),
    e ∈ (executeLoop w a d s l).tool_results →
    ∃ tc ∈ l, e.tool_name = tc.tool_name := by
  induction l with
  | nil =>
    intro s e h
    exact absurd h (List.not_mem_nil e)
  | cons tc0 rest ih =>
    intro s e h
    have h0 : e ∈ (processToolCall w a d s tc0).1 ++
        (executeLoop w a d (processToolCall w a d s tc0).2.2 rest).tool_results := h
    rcases List.mem_append.mp h0 with h1 | h2
    · unfold processToolCall at h1
      by_cases hd1 : tc0.call_id ∈ d
      · rw [if_pos hd1] at h1
        have he := List.mem_singleton.mp h1
        exact ⟨tc0, List.mem_cons_self _ _, by rw [he]⟩
      · by_cases hd2 : tc0.call_id ∈ a ∨ tc0.requires_permission = false
        · rw [if_neg hd1, if_pos hd2] at h1
          have he := List.mem_singleton.mp h1
          exact ⟨tc0, List.mem_cons_self _ _, by rw [he]⟩
        · rw [if_neg hd1, if_neg hd2] at h1
          exact absurd h1 (List.not_mem_nil e)
    · rcases ih _ e h2 with ⟨tc, htc, hname⟩
      exact ⟨tc, List.mem_cons_of_mem _ htc, hname⟩

/-- Every Invocation the extraction loop produces names a registered
tool. -/
theorem extract_pending_calls_names (fresh : Nat → String) :
    ∀ (i : Nat) (raw : List RawToolCall) (tc : ToolCall),
    tc ∈ extract_pending_calls fresh i raw →
    ∃ t, registry_get tc.tool_name = some t := by
  intro i raw
  induction raw generalizing i with
  | nil =>
    intro tc h
    exact absurd h (List.not_mem_nil tc)
  | cons rc rest ih =>
    intro tc h
    unfold extract_pending_calls at h
    cases hreg : registry_get rc.name with
    | none =>
      rw [hreg] at h
      exact ih (i + 1) tc h
    | some tool =>
      rw [hreg] at h
      rcases List.mem_cons.mp h with heq | htail
      · have hreg2 : registry_tools.find? (fun t => t.name == rc.name) = some tool := hreg
        have hp := List.find?_some hreg2
        have hname : tool.name = rc.name := beq_iff_eq.mp hp
        subst heq
        refine ⟨tool, ?_⟩
        show registry_get tool.name = some tool
        rw [hname]
        exact hreg
      · exact ih (i + 1) tc htail

/-- C5: a model-declared structured call naming an unregistered tool is
skipped at extraction: it never becomes an Invocation in the pending
list, and no Result produced by executing that pending list carries its
name; only calls naming registered tools yield Invocations. -/
theorem c5_unknown_tools_skipped (fresh : Nat → String) (i : Nat)
    (raw : List RawToolCall) (rc : RawToolCall) (hmem : rc ∈ raw)
    (hunk : registry_get rc.name = Option.none) :
    (∀ tc ∈ extract_pending_calls fresh i raw,
      ∃ t, registry_get tc.tool_name = some t) ∧
    (∀ tc ∈ extract_pending_calls fresh i raw, tc.tool_name ≠ rc.name) ∧
    (∀ (w : World) (s : AgentState) (approved denied : Finset String),
      ∀ e ∈ (execute_tool_calls w
          { s with pending_tool_calls := extract_pending_calls fresh i raw }
          approved denied).tool_results,
        e.tool_name ≠ rc.name) := by
  refine ⟨fun tc h => extract_pending_calls_names fresh i raw tc h, ?_, ?_⟩
  · intro tc h heq
    rcases extract_pending_calls_names fresh i raw tc h with ⟨t, ht⟩
    rw [heq, hunk] at ht
    exact Option.noConfusion ht
  · intro w s approved denied e he heq
    rcases executeLoop_results_tool_names w approved denied
      (extract_pending_calls fresh i raw) _ e he with ⟨tc, htc, hname⟩
    rcases extract_pending_calls_names fresh i raw tc htc with ⟨t, ht⟩
    have hcon : registry_get rc.name = some t := by
      rw [← heq, hname]
      exact ht
    rw [hunk] at hcon
    exact Option.noConfusion hcon

/-- Witness for C5 at a hallucinated tool name. -/
theorem c5_witness :
    ((⟨"imaginary_tool", [], some "x"⟩ : RawToolCall) ∈
        [(⟨"imaginary_tool", [], some "x"⟩ : RawToolCall)] ∧
      registry_get "imaginary_tool" = Option.none) ∧
    (∀ tc ∈ extract_pending_calls (fun _ => "u") 0
        [(⟨"imaginary_tool", [], some "x"⟩ : RawToolCall)],
      tc.tool_name ≠ "imaginary_tool") :=
  ⟨⟨List.mem_singleton.mpr rfl, rfl⟩,
   (c5_unknown_tools_skipped (fun _ => "u") 0
      [(⟨"imaginary_tool", [], some "x"⟩ : RawToolCall)]
      (⟨"imaginary_tool", [], some "x"⟩ : RawToolCall)
      (List.mem_singleton.mpr rfl) rfl).2.1⟩

/-! ### C6: mixed batches are held, not partially executed -/

/-- A concrete auto-approvable invocation (filesystem read only). -/
def autoDemoCall : ToolCall :=
  read_dir_tool.create_tool_call [("path", PyValue.str "/tmp")] "auto-1"

/-- A concrete approval-requiring invocation (shell command). -/
def permDemoCall : ToolCall :=
  run_cmd_tool.create_tool_call [("command", PyValue.str "ls")] "perm-1"

/-- C6 counterexample: in a batch containing one auto-approvable and one
approval-requiring invocation, the controller takes the hold branch and
submits nothing for immediate execution — the auto-approvable call is not
executed in the same turn, contrary to the claim. -/
theorem c6_counterexample :
    autoDemoCall.requires_permission = false ∧
    permDemoCall.requires_permission = true ∧
    on_agent_response_ready [autoDemoCall, permDemoCall] =
      AgentReadyAction.holdForPermission [autoDemoCall, permDemoCall] [permDemoCall] ∧
    autoDemoCall.call_id ∉
      (on_agent_response_ready [autoDemoCall, permDemoCall]).executedNow := by
  refine ⟨rfl, rfl, by decide, by decide⟩

/-- C6 (amended): when a batch contains any approval-requiring
invocation, the whole batch (auto-approvable invocations included) is
held as pending, nothing is executed in that turn, and exactly the
approval-requiring invocations are surfaced to the caller; auto-approved
invocations are executed immediately in the same turn only when the
batch contains no approval-requiring invocation, in which case the whole
batch is submitted for execution. -/
theorem c6_amended_hold_or_execute (tool_calls : List ToolCall) :
    ((∃ tc ∈ tool_calls, tc.requires_permission = true) →
      on_agent_response_ready tool_calls =
        AgentReadyAction.holdForPermission tool_calls
          (tool_calls.filter (fun tc => tc.requires_permission)) ∧
      (on_agent_response_ready tool_calls).executedNow = ∅ ∧
      ∀ tc ∈ (on_agent_response_ready tool_calls).surfacedCalls,
        tc.requires_permission = true) ∧
    ((∀ tc ∈ tool_calls, tc.requires_permission = false) → tool_calls ≠ [] →
      on_agent_response_ready tool_calls =
        AgentReadyAction.executeNow tool_calls
          (tool_calls.map (fun tc => tc.call_id)).toFinset) := by
  constructor
  · rintro ⟨tc0, htc0, hreq⟩
    have hne : tool_calls.filter (fun tc => tc.requires_permission) ≠ [] := by
      intro hnil
      have hx := List.filter_eq_nil_iff.mp hnil tc0 htc0
      rw [hreq] at hx
      exact hx rfl
    have hact : on_agent_response_ready tool_calls =
        AgentReadyAction.holdForPermission tool_calls
          (tool_calls.filter (fun tc => tc.requires_permission)) := by
      unfold on_agent_response_ready
      rw [if_pos hne]
    refine ⟨hact, ?_, ?_⟩
    · rw [hact]
      rfl
    · rw [hact]
      intro tc h
      exact (List.mem_filter.mp h).2
  · intro hall hne
    have hfilter_nil : tool_calls.filter (fun tc => tc.requires_permission) = [] :=
      List.filter_eq_nil_iff.mpr (fun tc h => by rw [hall tc h]; simp)
    have hfilter_all : tool_calls.filter (fun tc => !tc.requires_permission) = tool_calls :=
      List.filter_eq_self.mpr (fun tc h => by rw [hall tc h]; rfl)
    unfold on_agent_response_ready
    rw [hfilter_nil, hfilter_all, if_neg (fun hcon : ([] : List ToolCall) ≠ [] => hcon rfl),
      if_pos hne]

/-- Witness for the amended C6 in both regimes: a mixed batch is held
with nothing executed, and an all-auto batch is executed at once. -/
theorem c6_amended_witness :
    ((permDemoCall ∈ [autoDemoCall, permDemoCall] ∧
        permDemoCall.requires_permission = true) ∧
      (on_agent_response_ready [autoDemoCall, permDemoCall]).executedNow = ∅) ∧
    ((∀ tc ∈ [autoDemoCall], tc.requires_permission = false) ∧
      on_agent_response_ready [autoDemoCall] =
        AgentReadyAction.executeNow [autoDemoCall]
          ([autoDemoCall].map (fun tc => tc.call_id)).toFinset) :=
  ⟨⟨⟨by decide, rfl⟩,
    ((c6_amended_hold_or_execute [autoDemoCall, permDemoCall]).1
      ⟨permDemoCall, by decide, rfl⟩).2.1⟩,
   ⟨by decide, (c6_amended_hold_or_execute [autoDemoCall]).2 (by decide) (by decide)⟩⟩

/-! ### C7: run_cmd output capture, exit codes, timeout -/

/-- The middle of a three-part concatenation is an infix. -/
theorem strInfix_of_append (pre mid post : String) : strInfix mid (pre ++ mid ++ post) :=
  ⟨pre.toList, post.toList, by
    simp [strInfix, String.toList, String.data_append]⟩

/-- Prepending text preserves infixes. -/
theorem strInfix_append_left_of (a c b : String) (h : strInfix a b) :
    strInfix a (c ++ b) := by
  rcases h with ⟨s, t, hs⟩
  refine ⟨c.toList ++ s, t, ?_⟩
  simp only [String.toList, String.data_append, List.append_assoc] at hs ⊢
  rw [hs]

/-- A nonempty stdout stream occurs verbatim inside the combined
capture. -/
theorem stdout_occursIn_combineOutput (sout serr : String) (h : sout ≠ "") :
    strInfix sout (combineOutput sout serr) := by
  unfold combineOutput
  rw [if_pos h]
  by_cases h2 : serr = ""
  · rw [if_neg (fun hc : serr ≠ "" => hc h2), if_neg (by simp)]
    refine ⟨"stdout:\n".toList, [], ?_⟩
    simp [String.toList, String.intercalate, String.intercalate.go, String.data_append]
  · rw [if_pos h2, if_neg (by simp)]
    refine ⟨"stdout:\n".toList, ("\n" ++ ("stderr:\n" ++ serr)).toList, ?_⟩
    simp [String.toList, String.intercalate, String.intercalate.go, String.data_append,
      List.append_assoc]

/-- A nonempty stderr stream occurs verbatim inside the combined
capture. -/
theorem stderr_occursIn_combineOutput (sout serr : String) (h : serr ≠ "") :
    strInfix serr (combineOutput sout serr) := by
  unfold combineOutput
  rw [if_pos h]
  by_cases h2 : sout = ""
  · rw [if_neg (fun hc : sout ≠ "" => hc h2), if_neg (by simp)]
    refine ⟨"stderr:\n".toList, [], ?_⟩
    simp [String.toList, String.intercalate, String.intercalate.go, String.data_append]
  · rw [if_pos h2, if_neg (by simp)]
    refine ⟨("stdout:\n" ++ sout ++ ("\n" ++ "stderr:\n")).toList, [], ?_⟩
    simp [String.toList, String.intercalate, String.intercalate.go, String.data_append,
      List.append_assoc]

/-- C7: a command that runs to completion has stdout and stderr captured
separately into the Result's output; a non-zero exit code yields
`success = false` with an error naming the exit code while the captured
output is preserved; exceeding the timeout yields `success = false` with
an error naming the timeout; and dispatching `run_cmd` through the
registry with only a command argument uses the default 30-second
timeout. -/
theorem c7_run_cmd_capture_and_timeout (w : World) (command : String) (timeout rc : Int)
    (sout serr : String) :
    (w.runCommand command Option.none timeout = CmdOutcome.completed rc sout serr →
      ((sout ≠ "" → strInfix sout (run_cmd_execute w command Option.none timeout).output) ∧
       (serr ≠ "" → strInfix serr (run_cmd_execute w command Option.none timeout).output) ∧
       (rc ≠ 0 →
         run_cmd_execute w command Option.none timeout =
           { success := false, output := combineOutput sout serr,
             error := some ("Command exited with code " ++ toString rc) }) ∧
       (rc = 0 →
         run_cmd_execute w command Option.none timeout =
           { success := true,
             output := "Command executed successfully:\n" ++ combineOutput sout serr }))) ∧
    (w.runCommand command Option.none timeout = CmdOutcome.timedOut →
      run_cmd_execute w command Option.none timeout =
        { success := false, output := "",
          error := some ("Command timed out after " ++ toString timeout ++ " seconds") }) ∧
    execute_tool w "run_cmd" [("command", PyValue.str command)] =
      run_cmd_execute w command Option.none 30 := by
  have hred : run_cmd_execute w command Option.none timeout =
      (match w.runCommand command Option.none timeout with
        | .completed rc2 so se =>
          if rc2 ≠ 0 then
            { success := false, output := combineOutput so se,
              error := some ("Command exited with code " ++ toString rc2) }
          else
            { success := true,
              output := "Command executed successfully:\n" ++ combineOutput so se }
        | .timedOut =>
          { success := false, output := "",
            error := some ("Command timed out after " ++ toString timeout ++ " seconds") }
        | .raised msg => { success := false, output := "", error := some msg }) := rfl
  refine ⟨?_, ?_, ?_⟩
  · intro hcmd
    have hcase : run_cmd_execute w command Option.none timeout =
        (if rc ≠ 0 then
          { success := false, output := combineOutput sout serr,
            error := some ("Command exited with code " ++ toString rc) }
         else
          { success := true,
            output := "Command executed successfully:\n" ++ combineOutput sout serr }) := by
      rw [hred, hcmd]
    by_cases hrc : rc ≠ 0
    · rw [if_pos hrc] at hcase
      refine ⟨?_, ?_, fun _ => hcase, fun h0 => absurd h0 hrc⟩
      · intro hs
        rw [hcase]
        exact stdout_occursIn_combineOutput sout serr hs
      · intro hs
        rw [hcase]
        exact stderr_occursIn_combineOutput sout serr hs
    · rw [if_neg hrc] at hcase
      refine ⟨?_, ?_, fun hc => absurd hc (fun hcc => hcc (by omega)), fun _ => hcase⟩
      · intro hs
        rw [hcase]
        exact strInfix_append_left_of _ _ _ (stdout_occursIn_combineOutput sout serr hs)
      · intro hs
        rw [hcase]
        exact strInfix_append_left_of _ _ _ (stderr_occursIn_combineOutput sout serr hs)
  · intro hcmd
    rw [hred, hcmd]
  · rfl

/-- An environment with a fixed failing command outcome at the default
timeout and a small filesystem; used to instantiate the run-command and
read-file theorems. -/
def demoWorld : World :=
  { fs := fun p =>
      if p = "/missing" then FileState.missing
      else if p = "/dir" then FileState.directory
      else if p = "/big" then FileState.file 2000000 (ReadOutcome.text ["x"])
      else if p = "/bin" then FileState.file 10 ReadOutcome.binary
      else if p = "/text" then FileState.file 10 (ReadOutcome.text ["a\n", "b\n", "c"])
      else FileState.missing
    runCommand := fun _ _ t =>
      if t == 30 then CmdOutcome.completed 2 "out" "err" else CmdOutcome.timedOut
    writeFile := fun _ _ _ => WriteOutcome.written
    listDir := fun _ => DirListing.entries [] }

/-- Witness for C7: a command exiting with code 2 at the default timeout
and a command that times out. -/
theorem c7_witness :
    (demoWorld.runCommand "ls" Option.none 30 = CmdOutcome.completed 2 "out" "err" ∧
      (2 : Int) ≠ 0 ∧
      run_cmd_execute demoWorld "ls" Option.none 30 =
        { success := false, output := combineOutput "out" "err",
          error := some ("Command exited with code " ++ toString (2 : Int)) }) ∧
    (demoWorld.runCommand "sleep 99" Option.none 5 = CmdOutcome.timedOut ∧
      run_cmd_execute demoWorld "sleep 99" Option.none 5 =
        { success := false, output := "",
          error := some ("Command timed out after " ++ toString (5 : Int) ++ " seconds") }) :=
  ⟨⟨rfl, by decide,
    ((c7_run_cmd_capture_and_timeout demoWorld "ls" 30 2 "out" "err").1 rfl).2.2.1
      (by decide)⟩,
   ⟨rfl, (c7_run_cmd_capture_and_timeout demoWorld "sleep 99" 5 0 "" "").2.1 rfl⟩⟩

/-! ### C8: read_file bounds, truncation and decode handling -/

/-- When the whole file fits under the line limit, the reading loop emits
every line `rstrip`ped and no truncation note. -/
theorem readKept_all (mx : Int) : ∀ (i : Nat) (ls : List String),
    (i : Int) + ls.length ≤ mx → readKept mx i ls = ls.map pyRstrip := by
  intro i ls
  induction ls generalizing i with
  | nil => intro h; rfl
  | cons l rest ih =>
    intro h
    have hlt : ¬((i : Int) ≥ mx) := by
      simp only [List.length_cons] at h
      push_cast at h
      omega
    have h2 : ((i + 1 : Nat) : Int) + rest.length ≤ mx := by
      simp only [List.length_cons] at h
      push_cast at h ⊢
      omega
    show (if (i : Int) ≥ mx then [truncationNote mx]
      else pyRstrip l :: readKept mx (i + 1) rest) = _
    rw [if_neg hlt, ih (i + 1) h2]
    rfl

/-- When the file has more lines than the limit, the reading loop emits
exactly the first `max_lines` lines `rstrip`ped followed by the
truncation note. -/
theorem readKept_trunc (mx : Int) : ∀ (i : Nat) (ls : List String),
    (i : Int) ≤ mx → mx < (i : Int) + ls.length →
    readKept mx i ls = (ls.take (mx - i).toNat).map pyRstrip ++ [truncationNote mx] := by
  intro i ls
  induction ls generalizing i with
  | nil =>
    intro h1 h2
    exfalso
    simp only [List.length_nil] at h2
    push_cast at h2
    omega
  | cons l rest ih =>
    intro h1 h2
    show (if (i : Int) ≥ mx then [truncationNote mx]
      else pyRstrip l :: readKept mx (i + 1) rest) = _
    by_cases hge : (i : Int) ≥ mx
    · rw [if_pos hge]
      have h0 : (mx - (i : Int)).toNat = 0 := by omega
      rw [h0, List.take_zero]
      rfl
    · rw [if_neg hge]
      have h1b : ((i + 1 : Nat) : Int) ≤ mx := by push_cast; omega
      have h2b : mx < ((i + 1 : Nat) : Int) + rest.length := by
        simp only [List.length_cons] at h2
        push_cast at h2 ⊢
        omega
      rw [ih (i + 1) h1b h2b]
      have htake : (mx - (i : Int)).toNat = (mx - ((i + 1 : Nat) : Int)).toNat + 1 := by
        push_cast
        omega
      rw [htake, List.take_succ_cons]
      rfl

/-- C8: `read_file` fails on a missing path and on a path that is not a
regular file; an existing regular file over 1,000,000 bytes yields a
"file too large" failure; a readable text file is truncated after
`max_lines` lines (default 500 when dispatched through the registry)
with a truncation note; and non-UTF-8 content yields a distinct
"cannot read as text" failure Result instead of an exception. -/
theorem c8_read_file_bounds (w : World) (path : String) (max_lines : Int) (size : Nat)
    (fileLines : List String) :
    (w.fs path = FileState.missing →
      read_file_execute w path max_lines =
        { success := false, output := "", error := some ("File does not exist: " ++ path) }) ∧
    (w.fs path = FileState.directory →
      read_file_execute w path max_lines =
        { success := false, output := "", error := some ("Path is not a file: " ++ path) }) ∧
    (∀ rd, w.fs path = FileState.file size rd → size > 1000000 →
      read_file_execute w path max_lines =
        { success := false, output := "", error := some (fileTooLargeError size) }) ∧
    (w.fs path = FileState.file size ReadOutcome.binary → size ≤ 1000000 →
      read_file_execute w path max_lines =
        { success := false, output := "",
          error := some ("Cannot read file as text (binary file?): " ++ path) }) ∧
    (w.fs path = FileState.file size (ReadOutcome.text fileLines) → size ≤ 1000000 →
      0 ≤ max_lines →
      ((fileLines.length ≤ max_lines.toNat →
         read_file_execute w path max_lines =
           { success := true,
             output := "Contents of \x27" ++ path ++ "\x27:\n```\n" ++
               String.intercalate "\n" (fileLines.map pyRstrip) ++ "\n```" }) ∧
       (max_lines.toNat < fileLines.length →
         read_file_execute w path max_lines =
           { success := true,
             output := "Contents of \x27" ++ path ++ "\x27:\n```\n" ++
               String.intercalate "\n"
                 ((fileLines.take max_lines.toNat).map pyRstrip ++
                   [truncationNote max_lines]) ++ "\n```" }))) ∧
    execute_tool w "read_file" [("path", PyValue.str path)] =
      read_file_execute w path 500 := by
  refine ⟨?_, ?_, ?_, ?_, ?_, rfl⟩
  · intro h
    unfold read_file_execute
    rw [h]
  · intro h
    unfold read_file_execute
    rw [h]
  · intro rd h hsize
    unfold read_file_execute
    rw [h]
    show (if size > 1000000 then _ else _) = _
    rw [if_pos hsize]
  · intro h hsize
    unfold read_file_execute
    rw [h]
    show (if size > 1000000 then _ else _) = _
    rw [if_neg (by omega)]
  · intro h hsize hmx
    have hred : read_file_execute w path max_lines =
        { success := true,
          output := "Contents of \x27" ++ path ++ "\x27:\n```\n" ++
            String.intercalate "\n" (readKept max_lines 0 fileLines) ++ "\n```" } := by
      unfold read_file_execute
      rw [h]
      show (if size > 1000000 then _ else _) = _
      rw [if_neg (by omega)]
    constructor
    · intro hlen
      rw [hred, readKept_all max_lines 0 fileLines (by push_cast; omega)]
    · intro hlen
      have htr := readKept_trunc max_lines 0 fileLines (by push_cast; omega)
        (by push_cast; omega)
      have hsub : (max_lines - ((0 : Nat) : Int)).toNat = max_lines.toNat := by
        push_cast
        omega
      rw [hsub] at htr
      rw [hred, htr]

/-- Witness for C8: a missing path, an oversized file, a binary file and
a text file truncated at two lines, all in the demo environment. -/
theorem c8_witness :
    (demoWorld.fs "/missing" = FileState.missing ∧
      read_file_execute demoWorld "/missing" 500 =
        { success := false, output := "",
          error := some ("File does not exist: " ++ "/missing") }) ∧
    (demoWorld.fs "/big" = FileState.file 2000000 (ReadOutcome.text ["x"]) ∧
      (2000000 : Nat) > 1000000 ∧
      read_file_execute demoWorld "/big" 500 =
        { success := false, output := "", error := some (fileTooLargeError 2000000) }) ∧
    (demoWorld.fs "/bin" = FileState.file 10 ReadOutcome.binary ∧
      read_file_execute demoWorld "/bin" 500 =
        { success := false, output := "",
          error := some ("Cannot read file as text (binary file?): " ++ "/bin") }) ∧
    (demoWorld.fs "/text" = FileState.file 10 (ReadOutcome.text ["a\n", "b\n", "c"]) ∧
      (2 : Int).toNat < (["a\n", "b\n", "c"] : List String).length ∧
      read_file_execute demoWorld "/text" 2 =
        { success := true,
          output := "Contents of \x27" ++ "/text" ++ "\x27:\n```\n" ++
            String.intercalate "\n"
              (((["a\n", "b\n", "c"] : List String).take (2 : Int).toNat).map pyRstrip ++
                [truncationNote 2]) ++ "\n```" }) :=
  ⟨⟨rfl, (c8_read_file_bounds demoWorld "/missing" 500 0 []).1 rfl⟩,
   ⟨rfl, by decide,
    (c8_read_file_bounds demoWorld "/big" 500 2000000 []).2.2.1
      (ReadOutcome.text ["x"]) rfl (by decide)⟩,
   ⟨rfl, (c8_read_file_bounds demoWorld "/bin" 500 10 []).2.2.2.1 rfl (by decide)⟩,
   ⟨rfl, by decide,
    ((c8_read_file_bounds demoWorld "/text" 2 10 ["a\n", "b\n", "c"]).2.2.2.2.1
      rfl (by decide) (by decide)).2 (by decide)⟩⟩

end Kortex
